import Mathlib

/-!
Verification of the last.fm chart-collage backend (`src/app/main.py`).

The Python source is shallowly embedded: pure computations become Lean
functions, network effects become explicit oracle functions passed as
arguments (the oracle returns what the corresponding `await` would have
produced), and Python exceptions (`HTTPException`, `IndexError`,
`UnboundLocalError`, aiohttp errors) become `Option`/`Except` results.
Strings that the source manipulates character-by-character (text labels,
`len`, slicing, `split("\n")`) are embedded as `List Char`, matching
Python's code-point semantics; URLs, which are only compared for equality
and used as dictionary keys, stay `String`.
-/

namespace LastfmChart

/-- Raw image bytes (`await resp.read()` in the source). -/
abbrev Bytes := List Nat

/-- A Python string viewed as its list of characters. -/
abbrev Str := List Char

/-- `DATATYPES` dictionary, `main.py` lines 19-24. -/
def DATATYPES : List (String × String) :=
  [("albums", "user.gettopalbums"),
   ("artists", "user.gettopartists"),
   ("recenttracks", "user.getrecenttracks")]

/-- `NO_IMAGE_PLACEHOLDER`, `main.py` lines 25-27. -/
def NO_IMAGE_PLACEHOLDER : String :=
  "https://lastfm.freetls.fastly.net/i/u/300x300/2a96cbd8b46e442fc41c2b86b821562f.png"

/-- Outcome of the validation prefix of the `lastfm_chart` handler:
either an `HTTPException` is raised (no network call has happened yet),
or the handler proceeds to the provider request with the method name
looked up in `DATATYPES`. -/
inductive RequestOutcome where
  | rejected (statusCode : Nat) (detail : String)
  | proceeds (method : String)
deriving DecidableEq

/-- Validation prefix of `lastfm_chart`, `main.py` lines 45-64: the
height/width sum check, then the datatype check, in source order; the
provider network request happens only on the `proceeds` branch.
FastAPI parses `height` and `width` as (possibly negative) integers. -/
def lastfm_chart_validate (height width : Int) (datatype : String) : RequestOutcome :=
  if 31 < height + width then
    RequestOutcome.rejected 400 "Height and width cannot be greater than 31"
  else
    match DATATYPES.lookup datatype with
    | some m => RequestOutcome.proceeds m
    | none => RequestOutcome.rejected 400 "Invalid datatype"

/-- Media type declared on the success `StreamingResponse`, `main.py` line 72. -/
def lastfm_chart_media_type : String := "image/png"

/-- Encoding format passed to `final.save`, `main.py` line 228. -/
def create_graph_save_format : String := "webp"

/-- Name given to the encoded output buffer, `main.py` line 229. -/
def create_graph_file_name : String := "chart.webp"

/-- `format_plays`, `main.py` lines 289-292. -/
def format_plays (amount : Nat) : Str :=
  if amount = 1 then "play".data else "plays".data

/-- Python `str(n)` for a natural number (used by the f-string `{plays}`). -/
def natStr (n : Nat) : Str := (Nat.repr n).data

/-! ## Image fetching (`get_img`, `main.py` lines 278-286) -/

/-- What one `session.get` can produce: an aiohttp-level failure
(exception raised, no response object), or a response with a status code
and body bytes. -/
inductive FetchOutcome where
  | netErr
  | resp (statusCode : Nat) (body : Bytes)
deriving DecidableEq

/-- Python's `url or NO_IMAGE_PLACEHOLDER` (line 280): an empty reference
is falsy, so the placeholder is substituted as the primary target. -/
def url_or_placeholder (url : String) : String :=
  if url = "" then NO_IMAGE_PLACEHOLDER else url

/-- `get_img`, `main.py` lines 278-286, over a network oracle `net`.
Returns the result (`Except.error` when an aiohttp exception propagates
out of `get_img`) together with the list of URLs requested, in request
order.  Note the source checks `resp.status == 200` only for the primary
request; the second request's body is returned without a status check,
and an aiohttp exception at either request propagates. -/
def get_img (net : String → FetchOutcome) (url : String) :
    Except Unit Bytes × List String :=
  let target := url_or_placeholder url
  match net target with
  | FetchOutcome.netErr => (Except.error (), [target])
  | FetchOutcome.resp s body =>
    if s = 200 then (Except.ok body, [target])
    else
      match net NO_IMAGE_PLACEHOLDER with
      | FetchOutcome.netErr => (Except.error (), [target, NO_IMAGE_PLACEHOLDER])
      | FetchOutcome.resp _ body2 => (Except.ok body2, [target, NO_IMAGE_PLACEHOLDER])

/-! ## Grid composition (`chunks` and `create_graph`, `main.py` lines 203-231) -/

/-- `chunks`, `main.py` lines 203-206: successive `n`-sized chunks.
(For `n = 0` the Python `range` raises `ValueError`; that branch is
modelled as `[]` and is never reached for a request with `width ≥ 1`.) -/
def chunks {α : Type} (l : List α) (n : Nat) : List (List α) :=
  if l.isEmpty then []
  else if n = 0 then []
  else l.take n :: chunks (l.drop n) n
termination_by l.length
decreasing_by
  simp only [List.length_drop]
  rename_i h1 h2
  simp only [List.isEmpty_iff] at h1
  have := List.length_pos.2 h1
  omega

/-- One row of `create_graph`'s paste loop (`main.py` lines 216-220):
tiles pasted at the current `y`, with `x` starting at `x0` and advancing
by 300 per tile.  Each element is (paste position, tile). -/
def paste_row {α : Type} : List α → Nat → Nat → List ((Nat × Nat) × α)
  | [], _, _ => []
  | t :: ts, x0, y => ((x0, y), t) :: paste_row ts (x0 + 300) y

/-- The outer loop of `create_graph` (`main.py` lines 213-221): rows
pasted top to bottom, `y` advancing by 300 per row, `x` restarting at 0. -/
def paste_rows {α : Type} : List (List α) → Nat → List ((Nat × Nat) × α)
  | [], _ => []
  | r :: rs, y => paste_row r 0 y ++ paste_rows rs (y + 300)

/-- All paste operations performed by `create_graph` on a tile list, in
execution order: `images = chunks(data, w)`, then the nested paste loop. -/
def create_graph_placements {α : Type} (data : List α) (w : Nat) :
    List ((Nat × Nat) × α) :=
  paste_rows (chunks data w) 0

/-- `dimensions = (300 * w, 300 * h)`, `main.py` line 210: canvas size
before any downsizing. -/
def create_graph_dimensions (w h : Nat) : Nat × Nat := (300 * w, 300 * h)

/-- Pixel size of the encoded output, `main.py` lines 222-226: the canvas
is resized to 2100x2100 exactly when both of its dimensions exceed 2100. -/
def create_graph_final_size (w h : Nat) : Nat × Nat :=
  let dims := create_graph_dimensions w h
  if 2100 < dims.1 ∧ 2100 < dims.2 then (2100, 2100) else dims

/-! ## Ranked items and labels (`create_chart`, `main.py` lines 75-137) -/

/-- One entry of `data["topalbums"]["album"]`: the fields read by the
albums branch (`name`, `artist.name`, `playcount`, and
`image[3]["#text"]`, the "large" image variant). -/
structure AlbumEntry where
  name : Str
  artist : Str
  playcount : Nat
  image3 : String

/-- One entry of `data["topartists"]["artist"]`: the fields read by the
artists branch (no image is taken from the provider). -/
structure ArtistEntry where
  name : Str
  playcount : Nat

/-- One entry of `data["recenttracks"]["track"]`: `name`,
`artist["#text"]` and `image[3]["#text"]`. -/
structure TrackEntry where
  name : Str
  artist : Str
  image3 : String

/-- First label line of an album/artist item: `f"{plays} {format_plays(plays)}"`. -/
def plays_line (playcount : Nat) : Str :=
  natStr playcount ++ " ".data ++ format_plays playcount

/-- Album label, `main.py` line 91: `f"{plays} {format_plays(plays)}\n{name} - {artist}"`. -/
def album_label (a : AlbumEntry) : Str :=
  plays_line a.playcount ++ '\n' :: (a.name ++ " - ".data ++ a.artist)

/-- Artist label, `main.py` line 111: `f"{plays} {format_plays(plays)}\n{name}"`. -/
def artist_label (a : ArtistEntry) : Str :=
  plays_line a.playcount ++ '\n' :: a.name

/-- Track label, `main.py` line 131: `f"{name} - {artist}"`. -/
def track_label (t : TrackEntry) : Str :=
  t.name ++ " - ".data ++ t.artist

/-! ## The per-request image cache (`chart_data`, `main.py` lines 84-88,
104-108, 124-128) -/

/-- Lookup in the `chart_data` dictionary (modelled as an association
list; each key is inserted at most once). -/
def dict_get : List (String × Bytes) → String → Option Bytes
  | [], _ => none
  | (k, v) :: rest, r => if k = r then some v else dict_get rest r

/-- The common tile-collection loop of all three `create_chart` branches:
for each (label, image reference) item in order, reuse the cached bytes
for the reference if present, otherwise invoke the image fetcher once and
store the result.  `fetch` is the oracle for a successful `get_img` call.
Returns (chart, final cache, references fetched in fetch order). -/
def build_chart_loop (fetch : String → Bytes) :
    List (Str × String) → List (String × Bytes) → List String →
    List (Str × Bytes) × List (String × Bytes) × List String
  | [], cache, fetched => ([], cache, fetched)
  | item :: rest, cache, fetched =>
    match dict_get cache item.2 with
    | some b =>
      let r := build_chart_loop fetch rest cache fetched
      ((item.1, b) :: r.1, r.2)
    | none =>
      let b := fetch item.2
      let r := build_chart_loop fetch rest ((item.2, b) :: cache) (fetched ++ [item.2])
      ((item.1, b) :: r.1, r.2)

/-- Albums branch of `create_chart`, `main.py` lines 78-94: items are the
first `width*height` albums, labelled, keyed by `album["image"][3]["#text"]`. -/
def create_chart_albums (fetch : String → Bytes) (albums : List AlbumEntry) (w h : Nat) :
    List (Str × Bytes) × List (String × Bytes) × List String :=
  build_chart_loop fetch
    ((albums.take (w * h)).map (fun a => (album_label a, a.image3))) [] []

/-- Artists branch of `create_chart`, `main.py` lines 97-114: the loop
reads `scraped_images[i]` for the i-th ranked artist; when the scrape
returned fewer URLs than ranked artists this raises `IndexError` and the
request fails (modelled by `none`).  Under the length guard the indexed
access is `zip` with the scraped list. -/
def create_chart_artists (fetch : String → Bytes) (artists : List ArtistEntry)
    (scraped : List String) (w h : Nat) :
    Option (List (Str × Bytes) × List (String × Bytes) × List String) :=
  let iterator := artists.take (w * h)
  if iterator.length ≤ scraped.length then
    some (build_chart_loop fetch
      ((iterator.zip scraped).map (fun p => (artist_label p.1, p.2))) [] [])
  else none

/-- The `data["recenttracks"]["track"]` field: the provider returns a
single object instead of a list when exactly one track exists. -/
inductive TracksField where
  | one (t : TrackEntry)
  | many (ts : List TrackEntry)

/-- The `isinstance(tracks, dict)` normalization, `main.py` lines 119-120. -/
def normalize_tracks : TracksField → List TrackEntry
  | TracksField.one t => [t]
  | TracksField.many ts => ts

/-- Recent-tracks branch of `create_chart`, `main.py` lines 117-135.
`img` is assigned only inside the per-track loop, so when the truncated
track list is empty the function ends with `img` unbound
(`UnboundLocalError`, modelled by `none`): no image is produced. -/
def create_chart_recent (fetch : String → Bytes) (tf : TracksField) (w h : Nat) :
    Option (List (Str × Bytes) × List (String × Bytes) × List String) :=
  let tracks := (normalize_tracks tf).take (w * h)
  if tracks.isEmpty then none
  else
    some (build_chart_loop fetch
      (tracks.map (fun t => (track_label t, t.image3))) [] [])

/-! ### Lemmas about the cache loop -/

theorem dict_get_mem {cache : List (String × Bytes)} {r : String} {b : Bytes}
    (h : dict_get cache r = some b) : (r, b) ∈ cache := by
  induction cache with
  | nil => simp [dict_get] at h
  | cons p rest ih =>
    obtain ⟨k, v⟩ := p
    simp only [dict_get] at h
    by_cases hk : k = r
    · rw [if_pos hk] at h
      simp only [Option.some.injEq] at h
      subst hk; subst h
      exact List.mem_cons_self _ _
    · rw [if_neg hk] at h
      exact List.mem_cons_of_mem _ (ih h)

theorem dict_get_isSome (cache : List (String × Bytes)) (r : String) :
    (dict_get cache r).isSome ↔ r ∈ cache.map Prod.fst := by
  induction cache with
  | nil => simp [dict_get]
  | cons p rest ih =>
    obtain ⟨k, v⟩ := p
    simp only [dict_get, List.map_cons, List.mem_cons]
    by_cases hk : k = r
    · rw [if_pos hk]
      simp [hk]
    · rw [if_neg hk]
      rw [ih]
      constructor
      · exact Or.inr
      · rintro (h | h)
        · exact absurd h.symm hk
        · exact h

/-- In every run started with a cache whose entries agree with `fetch`,
the produced chart pairs each label with the fetched bytes of its own
reference, in item order. -/
theorem build_chart_loop_chart (fetch : String → Bytes) (items : List (Str × String))
    (cache : List (String × Bytes)) (fetched : List String)
    (hc : ∀ p ∈ cache, p.2 = fetch p.1) :
    (build_chart_loop fetch items cache fetched).1
      = items.map (fun it => (it.1, fetch it.2)) := by
  induction items generalizing cache fetched with
  | nil => rfl
  | cons item rest ih =>
    simp only [build_chart_loop]
    cases hdg : dict_get cache item.2 with
    | some b =>
      have hb : b = fetch item.2 := hc _ (dict_get_mem hdg)
      simp only [List.map_cons]
      rw [ih cache fetched hc, hb]
    | none =>
      simp only [List.map_cons]
      rw [ih ((item.2, fetch item.2) :: cache) (fetched ++ [item.2])]
      intro p hp
      rcases List.mem_cons.mp hp with h | h
      · rw [h]
      · exact hc _ h

/-- The references the loop fetches, given the keys already cached: the
first occurrence of each reference not yet known, in item order. -/
def newKeys : List (Str × String) → List String → List String
  | [], _ => []
  | item :: rest, known =>
    if item.2 ∈ known then newKeys rest known
    else item.2 :: newKeys rest (item.2 :: known)

theorem build_chart_loop_fetched (fetch : String → Bytes) (items : List (Str × String))
    (cache : List (String × Bytes)) (fetched : List String) :
    (build_chart_loop fetch items cache fetched).2.2
      = fetched ++ newKeys items (cache.map Prod.fst) := by
  induction items generalizing cache fetched with
  | nil => simp [build_chart_loop, newKeys]
  | cons item rest ih =>
    simp only [build_chart_loop, newKeys]
    by_cases hmem : item.2 ∈ cache.map Prod.fst
    · have hsome : (dict_get cache item.2).isSome := (dict_get_isSome cache item.2).2 hmem
      rw [Option.isSome_iff_exists] at hsome
      obtain ⟨b, hb⟩ := hsome
      rw [hb]
      simp only [if_pos hmem]
      exact ih cache fetched
    · have hnone : dict_get cache item.2 = none := by
        rcases h : dict_get cache item.2 with _ | b
        · rfl
        · exact absurd ((dict_get_isSome cache item.2).1 (by rw [h]; rfl)) hmem
      rw [hnone]
      simp only [if_neg hmem]
      rw [ih ((item.2, fetch item.2) :: cache) (fetched ++ [item.2])]
      simp

theorem newKeys_nodup_disjoint (items : List (Str × String)) (known : List String) :
    (newKeys items known).Nodup ∧ ∀ r ∈ newKeys items known, r ∉ known := by
  induction items generalizing known with
  | nil => simp [newKeys]
  | cons item rest ih =>
    simp only [newKeys]
    by_cases hmem : item.2 ∈ known
    · rw [if_pos hmem]
      exact ih known
    · rw [if_neg hmem]
      obtain ⟨hnd, hdisj⟩ := ih (item.2 :: known)
      constructor
      · refine List.nodup_cons.2 ⟨?_, hnd⟩
        intro hin
        exact hdisj _ hin (List.mem_cons_self _ _)
      · intro r hr
        rcases List.mem_cons.mp hr with h | h
        · rw [h]; exact hmem
        · intro hk
          exact hdisj _ h (List.mem_cons_of_mem _ hk)

theorem newKeys_mem (items : List (Str × String)) (known : List String) (r : String) :
    r ∈ newKeys items known ↔ r ∈ items.map Prod.snd ∧ r ∉ known := by
  induction items generalizing known with
  | nil => simp [newKeys]
  | cons item rest ih =>
    simp only [newKeys, List.map_cons, List.mem_cons]
    by_cases hmem : item.2 ∈ known
    · rw [if_pos hmem, ih]
      constructor
      · exact fun h => ⟨Or.inr h.1, h.2⟩
      · rintro ⟨h | h, hk⟩
        · exact absurd (h ▸ hmem) hk
        · exact ⟨h, hk⟩
    · rw [if_neg hmem]
      simp only [List.mem_cons, ih]
      constructor
      · rintro (h | ⟨h1, h2⟩)
        · exact ⟨Or.inl h, h ▸ hmem⟩
        · refine ⟨Or.inr h1, ?_⟩
          intro hk
          exact h2 (Or.inr hk)
      · rintro ⟨h | h, hk⟩
        · exact Or.inl h
        · by_cases hr : r = item.2
          · exact Or.inl hr
          · refine Or.inr ⟨h, ?_⟩
            rintro (h2 | h2)
            · exact hr h2
            · exact hk h2

/-- Python's `str.split("\n")` on a character list: always returns at
least one (possibly empty) part; each `'\n'` starts a new part. -/
def split_nl : Str → List Str
  | [] => [[]]
  | c :: rest =>
    if c = '\n' then [] :: split_nl rest
    else
      match split_nl rest with
      | [] => [[c]]
      | s :: ss => (c :: s) :: ss

/-- An annotated tile: the text anchor passed to `draw.text`, the final
overlay text, and the underlying image bytes. -/
structure Tile where
  anchor : Nat × Nat
  text : Str
  img : Bytes
deriving DecidableEq

/-- Anchor and overlay text computed by `charts` for one two-line label,
`main.py` lines 148-156: `texts = item[0].split("\n")`; if `texts[1]` is
longer than 30 characters it is split at character 30 and the anchor
y-coordinate is 227, otherwise the label is drawn as is at y = 247; the
x-coordinate is the literal 5 in the `draw.text` call.  `none` models the
`IndexError` raised by `texts[1]` when the label has no newline. -/
def charts_layout (label : Str) : Option ((Nat × Nat) × Str) :=
  match split_nl label with
  | t0 :: t1 :: _ =>
    if 30 < t1.length then
      some ((5, 227), t0 ++ '\n' :: (t1.take 30 ++ '\n' :: t1.drop 30))
    else
      some ((5, 247), label)
  | _ => none

/-- One tile of `charts`: the overlay drawn on the item's image bytes. -/
def charts_render (item : Str × Bytes) : Option Tile :=
  (charts_layout item.1).map (fun pt => Tile.mk pt.1 pt.2 item.2)

/-- The tile-building loop of `charts`, `main.py` lines 144-167: one tile
appended per chart item, in order; an `IndexError` on any item aborts. -/
def charts_loop : List (Str × Bytes) → Option (List Tile)
  | [] => some []
  | item :: rest =>
    match charts_render item with
    | none => none
    | some t => (charts_loop rest).map (fun ts => t :: ts)

/-- Anchor and overlay text computed by `gen_track_chart` for one
single-line label, `main.py` lines 180-185: labels longer than 30
characters are split at character 30 with anchor y = 247, otherwise drawn
as is at y = 267; the x-coordinate is the literal 5. -/
def gen_track_layout (label : Str) : (Nat × Nat) × Str :=
  if 30 < label.length then ((5, 247), label.take 30 ++ '\n' :: label.drop 30)
  else ((5, 267), label)

/-- One tile of `gen_track_chart`. -/
def gen_track_render (item : Str × Bytes) : Tile :=
  Tile.mk (gen_track_layout item.1).1 (gen_track_layout item.1).2 item.2

/-! ### Lemmas about `split_nl` -/

theorem split_nl_ne_nil (s : Str) : split_nl s ≠ [] := by
  induction s with
  | nil => simp [split_nl]
  | cons c rest ih =>
    simp only [split_nl]
    by_cases hc : c = '\n'
    · simp [hc]
    · rw [if_neg hc]
      cases h : split_nl rest with
      | nil => simp
      | cons s ss => simp

theorem split_nl_no_newline (s : Str) (h : '\n' ∉ s) : split_nl s = [s] := by
  induction s with
  | nil => rfl
  | cons c rest ih =>
    simp only [List.mem_cons, not_or] at h
    simp only [split_nl]
    rw [if_neg (fun hc => h.1 hc.symm)]
    simp only [ih h.2]

theorem split_nl_append (s t : Str) (h : '\n' ∉ s) :
    split_nl (s ++ '\n' :: t) = s :: split_nl t := by
  induction s with
  | nil => simp [split_nl]
  | cons c rest ih =>
    simp only [List.mem_cons, not_or] at h
    simp only [List.cons_append, split_nl]
    rw [if_neg (fun hc => h.1 hc.symm)]
    simp only [List.append_eq, ih h.2]

/-- **C8.** For a two-line label (albums/artists) whose first line has no
newline: a second line of exactly 30 characters is not split and is drawn
at anchor (5, 247); a second line of 31 characters is split at character
offset 30 and drawn at anchor (5, 227).  For a single-line recent-tracks
label: exactly 30 characters keeps anchor (5, 267); 31 characters splits
at offset 30 and shifts the anchor to (5, 247). -/
theorem C8_text_wrap_boundary (l0 l1 single : Str) (h0 : '\n' ∉ l0) (h1 : '\n' ∉ l1) :
    (l1.length = 30 →
      charts_layout (l0 ++ '\n' :: l1) = some ((5, 247), l0 ++ '\n' :: l1))
    ∧ (l1.length = 31 →
      charts_layout (l0 ++ '\n' :: l1) =
        some ((5, 227), l0 ++ '\n' :: (l1.take 30 ++ '\n' :: l1.drop 30)))
    ∧ (single.length = 30 → gen_track_layout single = ((5, 267), single))
    ∧ (single.length = 31 →
      gen_track_layout single = ((5, 247), single.take 30 ++ '\n' :: single.drop 30)) := by
  refine ⟨?_, ?_, ?_, ?_⟩
  · intro hlen
    simp only [charts_layout, split_nl_append l0 l1 h0, split_nl_no_newline l1 h1]
    rw [if_neg (by omega)]
  · intro hlen
    simp only [charts_layout, split_nl_append l0 l1 h0, split_nl_no_newline l1 h1]
    rw [if_pos (by omega)]
  · intro hlen
    simp only [gen_track_layout]
    rw [if_neg (by omega)]
  · intro hlen
    simp only [gen_track_layout]
    rw [if_pos (by omega)]

/-- Witness for C8 at concrete 30- and 31-character lines. -/
theorem C8_text_wrap_boundary_witness :
    charts_layout ("7 plays".data ++ '\n' :: "123456789012345678901234567890x".data)
      = some ((5, 227), "7 plays".data ++ '\n' ::
          ("123456789012345678901234567890x".data.take 30 ++ '\n' ::
            "123456789012345678901234567890x".data.drop 30))
    ∧ gen_track_layout "123456789012345678901234567890".data
      = ((5, 267), "123456789012345678901234567890".data) := by
  have h := C8_text_wrap_boundary "7 plays".data "123456789012345678901234567890x".data
    "123456789012345678901234567890".data (by decide) (by decide)
  exact ⟨h.2.1 (by decide), h.2.2.1 (by decide)⟩

/-- **C5.** In the tile-collection loop every `create_chart` branch runs
(with an initially empty `chart_data` cache): the list of references
passed to the image fetcher has no duplicates, contains exactly the
references occurring among the items, and its length is the number of
distinct references (not the number of items); moreover each tile's bytes
are the fetch result of its own reference, so any two items sharing a
reference yield tiles with identical bytes before text overlay. -/
theorem C5_cache_dedup (fetch : String → Bytes) (items : List (Str × String)) :
    (build_chart_loop fetch items [] []).2.2.Nodup
    ∧ (∀ s, s ∈ (build_chart_loop fetch items [] []).2.2 ↔ s ∈ items.map Prod.snd)
    ∧ (build_chart_loop fetch items [] []).2.2.length = (items.map Prod.snd).dedup.length
    ∧ (build_chart_loop fetch items [] []).1.map Prod.snd = (items.map Prod.snd).map fetch
    ∧ ∀ (i j : Nat) (li lj : Str) (bi bj : Bytes),
        (build_chart_loop fetch items [] []).1[i]? = some (li, bi) →
        (build_chart_loop fetch items [] []).1[j]? = some (lj, bj) →
        (items.map Prod.snd)[i]? = (items.map Prod.snd)[j]? →
        bi = bj := by
  have hchart : (build_chart_loop fetch items [] []).1
      = items.map (fun it => (it.1, fetch it.2)) :=
    build_chart_loop_chart fetch items [] [] (fun p hp => absurd hp (List.not_mem_nil p))
  have hfetched : (build_chart_loop fetch items [] []).2.2 = newKeys items [] := by
    have h := build_chart_loop_fetched fetch items [] []
    simpa using h
  have hmem : ∀ s, s ∈ (build_chart_loop fetch items [] []).2.2 ↔ s ∈ items.map Prod.snd := by
    intro s
    rw [hfetched, newKeys_mem]
    simp
  refine ⟨?_, hmem, ?_, ?_, ?_⟩
  · rw [hfetched]
    exact (newKeys_nodup_disjoint items []).1
  · have h1 : (build_chart_loop fetch items [] []).2.2.Nodup := by
      rw [hfetched]
      exact (newKeys_nodup_disjoint items []).1
    have h2 : ((items.map Prod.snd).dedup).Nodup := List.nodup_dedup _
    have h3 : ∀ s, s ∈ (build_chart_loop fetch items [] []).2.2
        ↔ s ∈ (items.map Prod.snd).dedup := by
      intro s
      rw [hmem s]
      exact (List.mem_dedup).symm
    exact ((List.perm_ext_iff_of_nodup h1 h2).2 h3).length_eq
  · rw [hchart]
    simp [List.map_map, Function.comp]
  · intro i j li lj bi bj hi hj hij
    rw [hchart, List.getElem?_map] at hi hj
    rw [List.getElem?_map, List.getElem?_map] at hij
    cases hii : items[i]? with
    | none => rw [hii] at hi; simp at hi
    | some iti =>
      cases hjj : items[j]? with
      | none => rw [hjj] at hj; simp at hj
      | some itj =>
        rw [hii] at hi hij
        rw [hjj] at hj hij
        simp only [Option.map_some', Option.some.injEq, Prod.mk.injEq] at hi hj hij
        rw [← hi.2, ← hj.2, hij]

/-- Witness for C5: three items whose first and third share reference
"a"; exactly two fetches happen and both tiles carry identical bytes. -/
theorem C5_cache_dedup_witness :
    (build_chart_loop (fun s => [s.length])
        [("x".data, "a"), ("y".data, "b"), ("z".data, "a")] [] []).2.2.length = 2
    ∧ ∃ li lj bi bj,
        (build_chart_loop (fun s => [s.length])
          [("x".data, "a"), ("y".data, "b"), ("z".data, "a")] [] []).1[0]? = some (li, bi)
        ∧ (build_chart_loop (fun s => [s.length])
            [("x".data, "a"), ("y".data, "b"), ("z".data, "a")] [] []).1[2]? = some (lj, bj)
        ∧ bi = bj := by
  constructor
  · exact ((C5_cache_dedup (fun s => [s.length])
      [("x".data, "a"), ("y".data, "b"), ("z".data, "a")]).2.2.1).trans (by decide)
  · refine ⟨"x".data, "z".data, [1], [1], rfl, rfl, ?_⟩
    exact (C5_cache_dedup (fun s => [s.length])
      [("x".data, "a"), ("y".data, "b"), ("z".data, "a")]).2.2.2.2
      0 2 "x".data "z".data [1] [1] rfl rfl rfl

/-- **C6, counterexample.** The claim states that a scrape yielding fewer
image URLs than the ranked artists still completes the request, with
degradation never surfaced as an error.  In the source the loop reads
`scraped_images[i]`, which raises `IndexError` and fails the request:
with one ranked artist and an empty scrape result, `create_chart`
produces no image at all. -/
theorem C6_counterexample :
    create_chart_artists (fun _ => []) [ArtistEntry.mk "A".data 3] [] 1 1 = none := by
  rfl

/-- **C6, amended.** When the artist-artwork scrape yields fewer URLs
than the (truncated) ranked-artist list, the artists branch fails with an
`IndexError` — the degradation is surfaced as a request failure; when the
scrape covers every ranked artist the branch completes. -/
theorem C6_scrape_shortfall (fetch : String → Bytes) (artists : List ArtistEntry)
    (scraped : List String) (w h : Nat) :
    (create_chart_artists fetch artists scraped w h = none
      ↔ scraped.length < min (w * h) artists.length)
    ∧ (min (w * h) artists.length ≤ scraped.length →
        ∃ r, create_chart_artists fetch artists scraped w h = some r) := by
  simp only [create_chart_artists, List.length_take]
  by_cases hg : min (w * h) artists.length ≤ scraped.length
  · rw [if_pos hg]
    constructor
    · simp only [reduceCtorEq, false_iff]
      omega
    · intro _
      exact ⟨_, rfl⟩
  · rw [if_neg hg]
    constructor
    · simp only [true_iff]
      omega
    · intro hc
      exact absurd hc hg

/-! ## Artist artwork scraping (`scrape_artists_for_chart`, `main.py`
lines 234-263) -/

/-- The fixed URL-pattern substitution applied to each extracted
thumbnail `src` (`main.py` line 260): every occurrence of the 70px
variant path segment is replaced by the 300px one. -/
def upgrade_src (s : String) : String :=
  s.replace "/avatar70s/" "/300x300/"

/-- The page numbers requested, `main.py` line 245:
`range(1, math.ceil(amount / 50) + 1)`; `(amount + 49) / 50` is
`ceil(amount / 50)` in natural division. -/
def scrape_pages (amount : Nat) : List Nat :=
  List.range' 1 ((amount + 49) / 50)

/-- The response-processing loop, `main.py` lines 252-261: pages are
consumed in page order (`asyncio.gather` preserves task order); before
each page the loop stops if `amount` images were already collected,
otherwise it appends that page's upgraded image URLs.  Note there is no
final truncation of `images` to `amount`. -/
def scrape_collect (amount : Nat) : List (List String) → List String → List String
  | [], images => images
  | data :: rest, images =>
    if amount ≤ images.length then images
    else scrape_collect amount rest (images ++ data.map upgrade_src)

/-- `scrape_artists_for_chart` over a page oracle: `pageImgs i` is the
list of `src` attributes of the `chartlist-image` cells extracted from
page `i` of the artist listing for the fixed (username, period), in
document order. -/
def scrape_artists_for_chart (pageImgs : Nat → List String) (amount : Nat) : List String :=
  scrape_collect amount ((scrape_pages amount).map pageImgs) []

/-- Characterization of the collection loop: it returns the accumulator
extended by an upgraded prefix of the page results, where the prefix is
maximal under the stop rule `amount ≤ collected`. -/
theorem scrape_collect_spec (amount : Nat) (resp : List (List String)) (acc : List String) :
    ∃ k, k ≤ resp.length
      ∧ scrape_collect amount resp acc = acc ++ ((resp.take k).flatten).map upgrade_src
      ∧ (∀ j < k, acc.length + ((resp.take j).flatten).length < amount)
      ∧ (k = resp.length ∨ amount ≤ acc.length + ((resp.take k).flatten).length) := by
  induction resp generalizing acc with
  | nil =>
    exact ⟨0, Nat.le_refl 0, by simp [scrape_collect], by omega, Or.inl rfl⟩
  | cons d rest ih =>
    simp only [scrape_collect]
    by_cases hstop : amount ≤ acc.length
    · refine ⟨0, Nat.zero_le _, ?_, by omega, Or.inr (by simpa using hstop)⟩
      rw [if_pos hstop]
      simp
    · rw [if_neg hstop]
      obtain ⟨k, hk, hval, hlt, hlast⟩ := ih (acc ++ d.map upgrade_src)
      refine ⟨k + 1, by simpa using hk, ?_, ?_, ?_⟩
      · rw [hval]
        simp [List.take_succ_cons]
      · intro j hj
        cases j with
        | zero => simpa using hstop
        | succ j' =>
          have h := hlt j' (by omega)
          simp only [List.length_append, List.length_map] at h
          simp only [List.take_succ_cons, List.flatten_cons, List.length_append,
            List.length_map]
          omega
      · rcases hlast with h | h
        · exact Or.inl (by simp [h])
        · refine Or.inr ?_
          simp only [List.length_append, List.length_map] at h
          simp only [List.take_succ_cons, List.flatten_cons, List.length_append,
            List.length_map]
          omega

/-- Witness for C6 (amended): with one ranked artist and one scraped
URL the branch completes. -/
theorem C6_scrape_shortfall_witness :
    ∃ r, create_chart_artists (fun _ => []) [ArtistEntry.mk "A".data 3] ["s"] 1 1 = some r := by
  exact (C6_scrape_shortfall (fun _ => []) [ArtistEntry.mk "A".data 3] ["s"] 1 1).2 (by decide)

/-- **C7, counterexample.** The claim states the concatenated scrape
result is truncated to the first `count` entries.  The source never
truncates: with `count = 60` and two pages of 50 URLs each, the loop
appends both pages (50 < 60 when the second page is considered) and
returns 100 URLs, not 60. -/
theorem C7_counterexample :
    (scrape_artists_for_chart (fun _ => List.replicate 50 "") 60).length = 100
    ∧ (scrape_artists_for_chart (fun _ => List.replicate 50 "") 60).length ≠ 60 := by
  constructor
  · rfl
  · decide

/-- **C7, amended.** For every (username, period, count): exactly
`ceil(count / 50)` listing pages are requested, numbered 1..pages; the
result is the page-order concatenation of the upgraded image URLs of an
initial run of pages — the loop stops before the first page at which
`count` URLs were already collected (so the run is all pages, or the
shortest prefix reaching `count`) — and the result is *not* truncated to
`count` entries (it may be longer, as the counterexample shows). -/
theorem C7_scrape_pagination (pageImgs : Nat → List String) (amount : Nat) :
    (scrape_pages amount).length * 50 < amount + 50
    ∧ amount ≤ (scrape_pages amount).length * 50
    ∧ scrape_pages amount = List.range' 1 ((amount + 49) / 50)
    ∧ ∃ k, k ≤ (scrape_pages amount).length
      ∧ scrape_artists_for_chart pageImgs amount
          = ((((scrape_pages amount).map pageImgs).take k).flatten).map upgrade_src
      ∧ (∀ j < k, ((((scrape_pages amount).map pageImgs).take j).flatten).length < amount)
      ∧ (k = (scrape_pages amount).length
          ∨ amount ≤ ((((scrape_pages amount).map pageImgs).take k).flatten).length) := by
  have hlen : (scrape_pages amount).length = (amount + 49) / 50 := by
    simp [scrape_pages]
  refine ⟨?_, ?_, rfl, ?_⟩
  · rw [hlen]; omega
  · rw [hlen]; omega
  · obtain ⟨k, hk, hval, hlt, hlast⟩ :=
      scrape_collect_spec amount ((scrape_pages amount).map pageImgs) []
    refine ⟨k, by simpa using hk, ?_, ?_, ?_⟩
    · rw [scrape_artists_for_chart, hval]
      simp
    · intro j hj
      have h := hlt j hj
      simpa using h
    · rcases hlast with h | h
      · exact Or.inl (by simpa using h)
      · exact Or.inr (by simpa using h)

/-! ## Digits contain no newline (so generated labels split as built) -/

theorem digitChar_ne_newline (m : Nat) : Nat.digitChar m ≠ '\n' := by
  rcases Nat.lt_or_ge m 16 with h | h
  · interval_cases m <;> decide
  · unfold Nat.digitChar
    iterate 16 rw [if_neg (by omega)]
    decide

theorem toDigitsCore_ne_newline (b fuel n : Nat) (ds : List Char)
    (h : ∀ c ∈ ds, c ≠ '\n') : ∀ c ∈ Nat.toDigitsCore b fuel n ds, c ≠ '\n' := by
  induction fuel generalizing n ds with
  | zero => simpa [Nat.toDigitsCore] using h
  | succ fuel ih =>
    simp only [Nat.toDigitsCore]
    by_cases hz : n / b = 0
    · rw [if_pos hz]
      intro c hc
      rcases List.mem_cons.mp hc with h1 | h1
      · rw [h1]; exact digitChar_ne_newline _
      · exact h c h1
    · rw [if_neg hz]
      refine ih (n / b) (Nat.digitChar (n % b) :: ds) ?_
      intro c hc
      rcases List.mem_cons.mp hc with h1 | h1
      · rw [h1]; exact digitChar_ne_newline _
      · exact h c h1

theorem natStr_no_newline (n : Nat) : '\n' ∉ natStr n := by
  intro hmem
  have h : ∀ c ∈ Nat.toDigits 10 n, c ≠ '\n' :=
    toDigitsCore_ne_newline 10 (n + 1) n [] (by intro c hc; cases hc)
  exact h '\n' hmem rfl

theorem plays_line_no_newline (p : Nat) : '\n' ∉ plays_line p := by
  simp only [plays_line, List.mem_append, not_or]
  refine ⟨⟨natStr_no_newline p, by decide⟩, ?_⟩
  simp only [format_plays]
  split_ifs <;> decide

/-- Any label of the form `line1 ++ "\n" ++ line2` with a newline-free
first line renders without `IndexError` in `charts`. -/
theorem charts_layout_isSome (l1 l2 : Str) (h : '\n' ∉ l1) :
    (charts_layout (l1 ++ '\n' :: l2)).isSome := by
  simp only [charts_layout, split_nl_append l1 l2 h]
  cases hs : split_nl l2 with
  | nil => exact absurd hs (split_nl_ne_nil l2)
  | cons t1 ss =>
    simp only []
    split_ifs <;> rfl

/-- `charts_loop` on renderable items: one tile per item, in order. -/
theorem charts_loop_spec (data : List (Str × Bytes))
    (h : ∀ item ∈ data, (charts_render item).isSome) :
    ∃ tiles, charts_loop data = some tiles
      ∧ tiles.length = data.length
      ∧ ∀ i : Nat, tiles[i]? = data[i]?.bind charts_render := by
  induction data with
  | nil => exact ⟨[], rfl, rfl, by intro i; simp⟩
  | cons item rest ih =>
    obtain ⟨t, ht⟩ := Option.isSome_iff_exists.1 (h item (List.mem_cons_self _ _))
    obtain ⟨tiles, htl, hlen, hidx⟩ := ih (fun it hit => h it (List.mem_cons_of_mem _ hit))
    refine ⟨t :: tiles, ?_, by simp [hlen], ?_⟩
    · simp only [charts_loop, ht, htl, Option.map_some']
    · intro i
      cases i with
      | zero => simp [ht]
      | succ i' => simpa using hidx i'

/-! ## Row-major placement of tiles on the canvas -/

theorem chunks_eq {α : Type} (l : List α) (n : Nat) :
    chunks l n = if l.isEmpty then [] else if n = 0 then []
      else l.take n :: chunks (l.drop n) n := by
  rw [chunks]

theorem paste_row_length {α : Type} (row : List α) (x y : Nat) :
    (paste_row row x y).length = row.length := by
  induction row generalizing x with
  | nil => rfl
  | cons t ts ih => simp [paste_row, ih]

theorem paste_row_getElem {α : Type} (row : List α) (x y i : Nat) :
    (paste_row row x y)[i]? = row[i]?.map (fun t => ((x + 300 * i, y), t)) := by
  induction row generalizing x i with
  | nil => simp [paste_row]
  | cons t ts ih =>
    cases i with
    | zero => simp [paste_row]
    | succ i' =>
      simp only [paste_row, List.getElem?_cons_succ]
      rw [ih (x + 300) i']
      have harith : x + 300 + 300 * i' = x + 300 * (i' + 1) := by ring
      rw [harith]

theorem paste_row_shift {α : Type} (row : List α) (x y d : Nat) :
    paste_row row x (y + d)
      = (paste_row row x y).map (fun q => ((q.1.1, q.1.2 + d), q.2)) := by
  induction row generalizing x with
  | nil => rfl
  | cons t ts ih => simp [paste_row, ih]

theorem paste_rows_shift {α : Type} (rows : List (List α)) (y d : Nat) :
    paste_rows rows (y + d)
      = (paste_rows rows y).map (fun q => ((q.1.1, q.1.2 + d), q.2)) := by
  induction rows generalizing y with
  | nil => rfl
  | cons r rs ih =>
    simp only [paste_rows, List.map_append]
    rw [paste_row_shift]
    have harith : y + d + 300 = y + 300 + d := by ring
    rw [harith, ih (y + 300)]

/-- The i-th paste operation of `create_graph` places the i-th tile at
pixel offset `(300 * (i % w), 300 * (i / w))`: row-major order. -/
theorem create_graph_placements_getElem {α : Type} (data : List α) (w : Nat)
    (hw : 0 < w) (i : Nat) :
    (create_graph_placements data w)[i]?
      = data[i]?.map (fun t => ((300 * (i % w), 300 * (i / w)), t)) := by
  by_cases hnil : data.isEmpty
  · have hd : data = [] := by simpa [List.isEmpty_iff] using hnil
    subst hd
    simp [create_graph_placements, chunks_eq, paste_rows]
  · have hlen0 : 0 < data.length := by
      rw [List.isEmpty_iff] at hnil
      exact List.length_pos.2 hnil
    rw [create_graph_placements, chunks_eq, if_neg hnil, if_neg (by omega : ¬ w = 0)]
    simp only [paste_rows]
    have htklen : (paste_row (data.take w) 0 0).length = min w data.length := by
      rw [paste_row_length, List.length_take]
    by_cases hi : i < min w data.length
    · rw [List.getElem?_append_left (by omega)]
      rw [paste_row_getElem]
      rw [List.getElem?_take_of_lt (by omega)]
      rw [Nat.mod_eq_of_lt (by omega), Nat.div_eq_of_lt (by omega)]
      simp
    · rw [List.getElem?_append_right (by omega), htklen]
      by_cases hlw : data.length ≤ w
      · have hdrop : data.drop w = [] := by
          rw [List.drop_eq_nil_iff]
          omega
        rw [hdrop]
        rw [List.getElem?_eq_none (by omega : data.length ≤ i)]
        simp [chunks_eq, paste_rows]
      · have hmin : min w data.length = w := by omega
        rw [hmin]
        have hshift : paste_rows (chunks (data.drop w) w) 300
            = (create_graph_placements (data.drop w) w).map
                (fun q => ((q.1.1, q.1.2 + 300), q.2)) := by
          rw [create_graph_placements]
          have h := paste_rows_shift (chunks (data.drop w) w) 0 300
          simpa using h
        rw [hshift, List.getElem?_map]
        rw [create_graph_placements_getElem (data.drop w) w hw (i - w)]
        rw [List.getElem?_drop]
        have hwi : w + (i - w) = i := by omega
        rw [hwi]
        have hmod : (i - w) % w = i % w := by
          conv_rhs => rw [← hwi]
          rw [Nat.add_mod_left]
        have hdiv : 300 * ((i - w) / w) + 300 = 300 * (i / w) := by
          conv_rhs => rw [← hwi]
          rw [Nat.add_comm w (i - w), Nat.add_div_right _ hw]
          ring
        cases data[i]? with
        | none => simp
        | some t => simp [hmod, hdiv]
termination_by data.length
decreasing_by
  simp only [List.length_drop]
  omega

/-- Rank-order preservation through the grid compositor: the pasted tiles,
in paste order, are exactly the input tiles, and the i-th tile lands at
the row-major cell `(column i % w, row i / w)`. -/
def tiles_in_rank_order {α : Type} (tiles : List α) (w : Nat) : Prop :=
  (create_graph_placements tiles w).map Prod.snd = tiles
  ∧ ∀ i : Nat, (create_graph_placements tiles w)[i]?
      = tiles[i]?.map (fun t => ((300 * (i % w), 300 * (i / w)), t))

theorem tiles_in_rank_order_of_pos {α : Type} (tiles : List α) (w : Nat) (hw : 0 < w) :
    tiles_in_rank_order tiles w := by
  have hget := create_graph_placements_getElem tiles w hw
  constructor
  · apply List.ext_getElem?
    intro i
    rw [List.getElem?_map, hget i]
    cases tiles[i]? <;> simp
  · exact hget

/-- Witness for C7 (amended): for count 60 the two requested pages cover
60 at 50 per page, and one page would not. -/
theorem C7_scrape_pagination_witness :
    60 ≤ (scrape_pages 60).length * 50 ∧ (scrape_pages 60).length * 50 < 60 + 50 := by
  exact ⟨(C7_scrape_pagination (fun _ => List.replicate 50 "") 60).2.1,
    (C7_scrape_pagination (fun _ => List.replicate 50 "") 60).1⟩

theorem zip_getElem {α β : Type} (l₁ : List α) (l₂ : List β) (i : Nat) :
    (l₁.zip l₂)[i]? = l₁[i]?.bind (fun a => l₂[i]?.map (fun b => (a, b))) := by
  simp only [List.zip, List.getElem?_zipWith']
  cases l₁[i]? <;> cases l₂[i]? <;> simp

/-- **C1, counterexample.** The claim asserts every valid request renders
`min(available, width*height)` tiles.  For recent tracks with zero
available items, `img` is assigned only inside the per-track loop, so the
source raises `UnboundLocalError` and renders nothing at all instead of
an empty 3x3 grid (`min 0 9 = 0` tiles). -/
theorem C1_counterexample :
    create_chart_recent (fun _ => []) (TracksField.many []) 3 3 = none
    ∧ ∀ r, create_chart_recent (fun _ => []) (TracksField.many []) 3 3 ≠ some r := by
  refine ⟨rfl, ?_⟩
  intro r hr
  rw [(rfl : create_chart_recent (fun _ => []) (TracksField.many []) 3 3 = none)] at hr
  cases hr

set_option maxHeartbeats 1600000 in
/-- **C1, amended.** For every request with positive grid dimensions, and
for each of the three metrics, the produced chart has exactly
`min(items available, width*height)` tiles, the i-th tile is built from
the i-th ranked item (label and fetched image in provider rank order),
and the grid compositor pastes tile i at the row-major cell
`(i % w, i / w)` — provided, for artists, that the artwork scrape covered
every ranked artist (otherwise the request fails with `IndexError`, claim
C6), and, for recent tracks, that at least one item is available
(otherwise the request fails with `UnboundLocalError`, see the
counterexample). -/
theorem C1_amended (fetch : String → Bytes) (albums : List AlbumEntry)
    (artists : List ArtistEntry) (scraped : List String) (tf : TracksField)
    (w h : Nat) (hw : 0 < w) (hh : 0 < h)
    (hart : min (w * h) artists.length ≤ scraped.length)
    (htr : normalize_tracks tf ≠ []) :
    ((create_chart_albums fetch albums w h).1.length = min albums.length (w * h)
      ∧ (∀ i : Nat, (create_chart_albums fetch albums w h).1[i]?
          = ((albums.take (w * h))[i]?).map (fun a => (album_label a, fetch a.image3)))
      ∧ ∃ tiles, charts_loop (create_chart_albums fetch albums w h).1 = some tiles
          ∧ tiles.length = min albums.length (w * h)
          ∧ tiles_in_rank_order tiles w)
    ∧ (∃ r, create_chart_artists fetch artists scraped w h = some r
        ∧ r.1.length = min artists.length (w * h)
        ∧ (∀ i : Nat, r.1[i]?
            = ((artists.take (w * h))[i]?).bind
                (fun a => (scraped[i]?).map (fun s => (artist_label a, fetch s))))
        ∧ ∃ tiles, charts_loop r.1 = some tiles
            ∧ tiles.length = min artists.length (w * h)
            ∧ tiles_in_rank_order tiles w)
    ∧ (∃ r, create_chart_recent fetch tf w h = some r
        ∧ r.1.length = min (normalize_tracks tf).length (w * h)
        ∧ (∀ i : Nat, r.1[i]?
            = (((normalize_tracks tf).take (w * h))[i]?).map
                (fun t => (track_label t, fetch t.image3)))
        ∧ (r.1.map gen_track_render).length = min (normalize_tracks tf).length (w * h)
        ∧ tiles_in_rank_order (r.1.map gen_track_render) w) := by
  have hloop : ∀ (items : List (Str × String)),
      (build_chart_loop fetch items [] []).1 = items.map (fun it => (it.1, fetch it.2)) :=
    fun items => build_chart_loop_chart fetch items [] []
      (fun p hp => absurd hp (List.not_mem_nil p))
  refine ⟨?_, ?_, ?_⟩
  · -- albums branch
    have hA : (create_chart_albums fetch albums w h).1
        = ((albums.take (w * h)).map (fun a => (album_label a, a.image3))).map
            (fun it => (it.1, fetch it.2)) := hloop _
    have hA1 : (create_chart_albums fetch albums w h).1.length
        = min albums.length (w * h) := by
      rw [hA]
      simp [List.length_take, Nat.min_comm]
    have hA2 : ∀ i : Nat, (create_chart_albums fetch albums w h).1[i]?
        = ((albums.take (w * h))[i]?).map (fun a => (album_label a, fetch a.image3)) := by
      intro i
      rw [hA, List.getElem?_map, List.getElem?_map]
      cases (albums.take (w * h))[i]? <;> simp
    have hrender : ∀ item ∈ (create_chart_albums fetch albums w h).1,
        (charts_render item).isSome := by
      intro item hitem
      rw [hA] at hitem
      simp only [List.map_map, List.mem_map] at hitem
      obtain ⟨a, _, ha⟩ := hitem
      rw [← ha]
      simp only [charts_render, Function.comp, Option.isSome_map']
      exact charts_layout_isSome _ _ (plays_line_no_newline a.playcount)
    obtain ⟨tiles, h1, h2, h3⟩ :=
      charts_loop_spec (create_chart_albums fetch albums w h).1 hrender
    exact ⟨hA1, hA2, tiles, h1, h2.trans hA1, tiles_in_rank_order_of_pos tiles w hw⟩
  · -- artists branch
    have hguard : (artists.take (w * h)).length ≤ scraped.length := by
      rw [List.length_take]
      exact hart
    have hBsome : create_chart_artists fetch artists scraped w h
        = some (build_chart_loop fetch
            (((artists.take (w * h)).zip scraped).map (fun p => (artist_label p.1, p.2)))
            [] []) := by
      simp only [create_chart_artists]
      rw [if_pos hguard]
    have hB : (build_chart_loop fetch
          (((artists.take (w * h)).zip scraped).map (fun p => (artist_label p.1, p.2)))
          [] []).1
        = (((artists.take (w * h)).zip scraped).map (fun p => (artist_label p.1, p.2))).map
            (fun it => (it.1, fetch it.2)) := hloop _
    have hB1 : (build_chart_loop fetch
          (((artists.take (w * h)).zip scraped).map (fun p => (artist_label p.1, p.2)))
          [] []).1.length = min artists.length (w * h) := by
      rw [hB]
      simp only [List.length_map, List.length_zip, List.length_take]
      omega
    have hB2 : ∀ i : Nat, (build_chart_loop fetch
          (((artists.take (w * h)).zip scraped).map (fun p => (artist_label p.1, p.2)))
          [] []).1[i]?
        = ((artists.take (w * h))[i]?).bind
            (fun a => (scraped[i]?).map (fun s => (artist_label a, fetch s))) := by
      intro i
      rw [hB, List.getElem?_map, List.getElem?_map, zip_getElem]
      cases (artists.take (w * h))[i]? <;> cases scraped[i]? <;> simp
    have hrender : ∀ item ∈ (build_chart_loop fetch
        (((artists.take (w * h)).zip scraped).map (fun p => (artist_label p.1, p.2)))
        [] []).1, (charts_render item).isSome := by
      intro item hitem
      rw [hB] at hitem
      simp only [List.map_map, List.mem_map] at hitem
      obtain ⟨p, _, hp⟩ := hitem
      rw [← hp]
      simp only [charts_render, Function.comp, Option.isSome_map']
      exact charts_layout_isSome _ _ (plays_line_no_newline p.1.playcount)
    obtain ⟨tiles, h1, h2, h3⟩ := charts_loop_spec (build_chart_loop fetch
      (((artists.take (w * h)).zip scraped).map (fun p => (artist_label p.1, p.2)))
      [] []).1 hrender
    exact ⟨_, hBsome, hB1, hB2, tiles, h1, h2.trans hB1,
      tiles_in_rank_order_of_pos tiles w hw⟩
  · -- recent-tracks branch
    have hwh : 0 < w * h := Nat.mul_pos hw hh
    have htk : ¬ ((normalize_tracks tf).take (w * h)).isEmpty = true := by
      simp only [List.isEmpty_iff, List.take_eq_nil_iff]
      push_neg
      exact ⟨by omega, htr⟩
    have hCsome : create_chart_recent fetch tf w h
        = some (build_chart_loop fetch
            (((normalize_tracks tf).take (w * h)).map (fun t => (track_label t, t.image3)))
            [] []) := by
      simp only [create_chart_recent]
      rw [if_neg htk]
    have hC : (build_chart_loop fetch
          (((normalize_tracks tf).take (w * h)).map (fun t => (track_label t, t.image3)))
          [] []).1
        = (((normalize_tracks tf).take (w * h)).map
            (fun t => (track_label t, t.image3))).map (fun it => (it.1, fetch it.2)) :=
      hloop _
    have hC1 : (build_chart_loop fetch
          (((normalize_tracks tf).take (w * h)).map (fun t => (track_label t, t.image3)))
          [] []).1.length = min (normalize_tracks tf).length (w * h) := by
      rw [hC]
      simp [List.length_take, Nat.min_comm]
    refine ⟨_, hCsome, hC1, ?_, ?_, ?_⟩
    · intro i
      rw [hC, List.getElem?_map, List.getElem?_map]
      cases ((normalize_tracks tf).take (w * h))[i]? <;> simp
    · rw [List.length_map]
      exact hC1
    · exact tiles_in_rank_order_of_pos _ w hw

/-- Witness for C1 (amended) at one concrete item per metric on a 1x1
grid. -/
theorem C1_amended_witness :
    (create_chart_albums (fun _ => []) [AlbumEntry.mk "N".data "A".data 2 "u"] 1 1).1.length = 1
    ∧ ∃ r, create_chart_artists (fun _ => []) [ArtistEntry.mk "B".data 1] ["s"] 1 1 = some r
        ∧ r.1.length = 1 := by
  have h := C1_amended (fun _ => []) [AlbumEntry.mk "N".data "A".data 2 "u"]
    [ArtistEntry.mk "B".data 1] ["s"]
    (TracksField.one (TrackEntry.mk "T".data "C".data "v")) 1 1
    (by decide) (by decide) (by decide) (by simp [normalize_tracks])
  obtain ⟨r, hr, hrl, _⟩ := h.2.1
  exact ⟨by simpa using h.1.1, r, hr, by simpa using hrl⟩

/-! ## Theorems for claims C2, C3, C9, C10, C4 -/

/-- **C2.** For every request, the composed canvas measures exactly
(300·width, 300·height) before downsizing; downsizing is triggered if and
only if both canvas dimensions exceed 2100 pixels (equivalently, width
and height are both at least 8), and when triggered the final image is
exactly 2100x2100. -/
theorem C2_canvas_dimensions (w h : Nat) :
    create_graph_dimensions w h = (300 * w, 300 * h)
    ∧ ((2100 < (create_graph_dimensions w h).1 ∧ 2100 < (create_graph_dimensions w h).2)
        ↔ (8 ≤ w ∧ 8 ≤ h))
    ∧ (8 ≤ w → 8 ≤ h → create_graph_final_size w h = (2100, 2100))
    ∧ (¬ (8 ≤ w ∧ 8 ≤ h) → create_graph_final_size w h = create_graph_dimensions w h) := by
  refine ⟨rfl, ?_, ?_, ?_⟩
  · simp only [create_graph_dimensions]
    omega
  · intro hw hh
    simp only [create_graph_final_size, create_graph_dimensions]
    rw [if_pos]
    exact ⟨by omega, by omega⟩
  · intro hcon
    simp only [create_graph_final_size, create_graph_dimensions]
    rw [if_neg]
    omega

/-- Witness for C2 at width = height = 8 (downsize triggered) packaged
with the canvas dimension fact at 3x3. -/
theorem C2_canvas_dimensions_witness :
    create_graph_final_size 8 8 = (2100, 2100)
    ∧ create_graph_dimensions 3 3 = (900, 900) := by
  exact ⟨(C2_canvas_dimensions 8 8).2.2.1 (by decide) (by decide),
    (C2_canvas_dimensions 3 3).1⟩

/-- **C3.** A request whose height+width sum exceeds 31 is rejected with
a 400 client error before any network call; a request with an unsupported
datatype is likewise rejected with a 400 before any network call; a
request whose sum is exactly 31 with a supported datatype passes
validation and proceeds to the provider request. -/
theorem C3_validation (height width : Int) (datatype : String) :
    (31 < height + width →
      lastfm_chart_validate height width datatype =
        RequestOutcome.rejected 400 "Height and width cannot be greater than 31")
    ∧ ((DATATYPES.lookup datatype).isNone →
        ∃ msg, lastfm_chart_validate height width datatype =
          RequestOutcome.rejected 400 msg)
    ∧ (height + width = 31 → (DATATYPES.lookup datatype).isSome →
        ∃ m, lastfm_chart_validate height width datatype = RequestOutcome.proceeds m) := by
  refine ⟨?_, ?_, ?_⟩
  · intro hsum
    simp only [lastfm_chart_validate, if_pos hsum]
  · intro hnone
    by_cases hsum : 31 < height + width
    · exact ⟨"Height and width cannot be greater than 31",
        by simp only [lastfm_chart_validate, if_pos hsum]⟩
    · refine ⟨"Invalid datatype", ?_⟩
      simp only [lastfm_chart_validate, if_neg hsum]
      rw [Option.isNone_iff_eq_none] at hnone
      rw [hnone]
  · intro hsum hsome
    rw [Option.isSome_iff_exists] at hsome
    obtain ⟨m, hm⟩ := hsome
    refine ⟨m, ?_⟩
    simp only [lastfm_chart_validate, if_neg (by omega : ¬ 31 < height + width)]
    rw [hm]

/-- Witness for C3: width=15, height=16 (sum 31) with metric `albums`
passes validation, and width=16, height=16 (sum 32) is rejected. -/
theorem C3_validation_witness :
    (∃ m, lastfm_chart_validate 16 15 "albums" = RequestOutcome.proceeds m)
    ∧ lastfm_chart_validate 16 16 "albums" =
        RequestOutcome.rejected 400 "Height and width cannot be greater than 31" := by
  exact ⟨(C3_validation 16 15 "albums").2.2 (by decide) (by decide),
    (C3_validation 16 16 "albums").1 (by decide)⟩

/-- **C9.** The success response declares content type `image/png`
(`main.py` line 72) while the image is actually encoded as WebP
(`main.py` lines 228-229): the declared content type does not equal the
raster format the output is encoded in. -/
theorem C9_media_type_mismatch :
    lastfm_chart_media_type = "image/png"
    ∧ create_graph_save_format = "webp"
    ∧ create_graph_file_name = "chart.webp"
    ∧ lastfm_chart_media_type ≠ "image/" ++ create_graph_save_format := by
  refine ⟨rfl, rfl, rfl, ?_⟩
  decide

/-- **C10.** Validation constrains only the sum height+width and the
datatype: any integer dimensions whose sum is at most 31, with a
supported datatype, pass validation and the handler proceeds to the
provider request (in particular non-positive dimensions are accepted). -/
theorem C10_no_positivity_check (height width : Int) (datatype : String)
    (hsum : height + width ≤ 31) (hdt : (DATATYPES.lookup datatype).isSome) :
    ∃ m, lastfm_chart_validate height width datatype = RequestOutcome.proceeds m
      ∧ DATATYPES.lookup datatype = some m := by
  rw [Option.isSome_iff_exists] at hdt
  obtain ⟨m, hm⟩ := hdt
  refine ⟨m, ?_, hm⟩
  simp only [lastfm_chart_validate, if_neg (by omega : ¬ 31 < height + width)]
  rw [hm]

/-- Witness for C10: width = 0 and height = -1 both pass validation with
a supported metric. -/
theorem C10_no_positivity_check_witness :
    (∃ m, lastfm_chart_validate 3 0 "albums" = RequestOutcome.proceeds m
      ∧ DATATYPES.lookup "albums" = some m)
    ∧ (∃ m, lastfm_chart_validate (-1) 5 "artists" = RequestOutcome.proceeds m
      ∧ DATATYPES.lookup "artists" = some m) := by
  exact ⟨C10_no_positivity_check 3 0 "albums" (by decide) (by decide),
    C10_no_positivity_check (-1) 5 "artists" (by decide) (by decide)⟩

/-- **C4, counterexample.** The claim states that any fetch failure
(non-200 status *or network error*) triggers exactly one retry against
the placeholder reference.  In the source, an aiohttp-level error on the
primary request propagates immediately: no placeholder request is made.
Concretely, with a network oracle that always errors, `get_img` on a
non-empty URL issues exactly one request, the placeholder is never
contacted, and the failure propagates. -/
theorem C4_counterexample :
    (get_img (fun _ => FetchOutcome.netErr) "http://img.example/a.png").2
        = ["http://img.example/a.png"]
    ∧ NO_IMAGE_PLACEHOLDER ∉
        (get_img (fun _ => FetchOutcome.netErr) "http://img.example/a.png").2
    ∧ (get_img (fun _ => FetchOutcome.netErr) "http://img.example/a.png").1
        = Except.error () := by
  refine ⟨rfl, ?_, rfl⟩
  decide

/-- **C4, amended.** For every image resolution: an empty reference makes
the placeholder the primary target; a primary response with status 200
is returned with no retry; a primary response with non-200 status causes
exactly one retry against the placeholder whose body is returned
regardless of its status; a network error on the primary request
propagates immediately with no placeholder retry; and a network error on
the placeholder retry propagates as the request failure. -/
theorem C4_amended (net : String → FetchOutcome) (url : String) :
    (net (url_or_placeholder url) = FetchOutcome.netErr →
      get_img net url = (Except.error (), [url_or_placeholder url]))
    ∧ (∀ b, net (url_or_placeholder url) = FetchOutcome.resp 200 b →
      get_img net url = (Except.ok b, [url_or_placeholder url]))
    ∧ (∀ s b s2 b2, net (url_or_placeholder url) = FetchOutcome.resp s b → s ≠ 200 →
        net NO_IMAGE_PLACEHOLDER = FetchOutcome.resp s2 b2 →
      get_img net url = (Except.ok b2, [url_or_placeholder url, NO_IMAGE_PLACEHOLDER]))
    ∧ (∀ s b, net (url_or_placeholder url) = FetchOutcome.resp s b → s ≠ 200 →
        net NO_IMAGE_PLACEHOLDER = FetchOutcome.netErr →
      get_img net url = (Except.error (), [url_or_placeholder url, NO_IMAGE_PLACEHOLDER])) := by
  refine ⟨?_, ?_, ?_, ?_⟩
  · intro hnet
    simp only [get_img, hnet]
  · intro b hnet
    simp only [get_img, hnet]
    simp
  · intro s b s2 b2 hnet hs hph
    simp only [get_img, hnet, if_neg hs, hph]
  · intro s b hnet hs hph
    simp only [get_img, hnet, if_neg hs, hph]

/-- Witness for C4 (amended): a primary 404 followed by a successful
placeholder fetch returns the placeholder's bytes after exactly one
retry. -/
theorem C4_amended_witness :
    get_img (fun u => if u = "u" then FetchOutcome.resp 404 [1] else FetchOutcome.resp 200 [2]) "u"
      = (Except.ok [2], ["u", NO_IMAGE_PLACEHOLDER]) := by
  have h := (C4_amended
    (fun u => if u = "u" then FetchOutcome.resp 404 [1] else FetchOutcome.resp 200 [2])
    "u").2.2.1 404 [1] 200 [2] (by decide) (by decide) (by decide)
  exact h

end LastfmChart
